import Mathlib

/-!
Shallow embedding of the checkout-and-settlement core of the
`stripe-connect-backend` repository, together with proofs settling the
claims about its specification.

Conventions of the embedding:
* JavaScript numbers are modelled by `JSNum`: an exact rational for the
  finite case plus the three special values `nan`, `inf`, `ninf`.
  (Rationals idealize IEEE doubles; none of the claims hinge on binary
  rounding of a double, only on `Math.round`, comparisons and special
  values, which are modelled exactly.)
* JavaScript strings are modelled by `Str := List Char`.
* Absent (`undefined`/`null`) values are modelled by `Option`.
* Network effects are modelled by passing the outcome of each outbound
  call as an explicit input (a `World` record), so every definition is an
  executable function of its inputs.
-/

/-- JavaScript strings, modelled as lists of characters. -/
abbrev Str := List Char

/-- Shorthand turning a Lean string literal into the `Str` model. -/
def strOf (s : String) : Str := s.data

/-- A JavaScript number: an exact rational, or one of the special values
`NaN`, `Infinity`, `-Infinity`. -/
inductive JSNum where
  | nan : JSNum
  | inf : JSNum
  | ninf : JSNum
  | fin : ℚ → JSNum
deriving DecidableEq, Repr

namespace JSNum

/-- JS `Number.isFinite`. -/
def isFinite : JSNum → Bool
  | fin _ => true
  | _ => false

/-- JS `Number.isNaN`. -/
def isNaN : JSNum → Bool
  | nan => true
  | _ => false

/-- JavaScript truthiness of a number: `0` and `NaN` are falsy. -/
def truthy : JSNum → Bool
  | nan => false
  | fin q => q ≠ 0
  | _ => true

/-- JavaScript `Math.round`: for finite arguments, rounds half toward
positive infinity (`floor (x + 1/2)`); `NaN` and infinities pass through. -/
def round : JSNum → JSNum
  | fin q => fin (⌊q + 1/2⌋ : ℤ)
  | x => x

/-- JavaScript multiplication on numbers (`NaN` absorbing, signed
infinity rules, `∞ * 0 = NaN`). -/
def mul : JSNum → JSNum → JSNum
  | nan, _ => nan
  | _, nan => nan
  | inf, inf => inf
  | inf, ninf => ninf
  | ninf, inf => ninf
  | ninf, ninf => inf
  | inf, fin q => if q = 0 then nan else if 0 < q then inf else ninf
  | fin q, inf => if q = 0 then nan else if 0 < q then inf else ninf
  | ninf, fin q => if q = 0 then nan else if 0 < q then ninf else inf
  | fin q, ninf => if q = 0 then nan else if 0 < q then ninf else inf
  | fin a, fin b => fin (a * b)

/-- JavaScript `<=` on numbers: any comparison with `NaN` is false. -/
def leb : JSNum → JSNum → Bool
  | nan, _ => false
  | _, nan => false
  | ninf, _ => true
  | _, ninf => false
  | _, inf => true
  | inf, _ => false
  | fin a, fin b => a ≤ b

/-- JavaScript `<` on numbers: any comparison with `NaN` is false. -/
def ltb : JSNum → JSNum → Bool
  | nan, _ => false
  | _, nan => false
  | inf, _ => false
  | _, inf => true
  | ninf, ninf => false
  | ninf, _ => true
  | _, ninf => false
  | fin a, fin b => a < b

/-- JavaScript `Math.max(0, x)`: `NaN` propagates, otherwise the maximum. -/
def max0 : JSNum → JSNum
  | nan => nan
  | inf => inf
  | ninf => fin 0
  | fin q => fin (max 0 q)

end JSNum

/-- A JavaScript value that is either absent (`undefined`) or a number;
used for the unit amount handed to the fee calculator. -/
inductive JSAmount where
  | undef : JSAmount
  | num : JSNum → JSAmount
deriving DecidableEq, Repr

namespace JSAmount

/-- JavaScript truthiness: `undefined`, `0` and `NaN` are falsy. -/
def truthy : JSAmount → Bool
  | undef => false
  | num x => x.truthy

/-- JS `Number.isNaN` applied to the value. -/
def isNaN : JSAmount → Bool
  | undef => false
  | num x => x.isNaN

/-- Multiplication by a number; `undefined * x` is `NaN` in JavaScript. -/
def mulNum : JSAmount → JSNum → JSNum
  | undef, _ => JSNum.nan
  | num x, y => x.mul y

end JSAmount

/-- Fee configuration, as parsed from the environment.
`platformFeeCents` is `Number(process.env.PLATFORM_FEE_CENTS)` when that
variable is set and non-empty, otherwise `none`; `platformFeePct` is
`Number(process.env.PLATFORM_FEE_PCT || '0.18')`, so it defaults to `0.18`. -/
structure FeeConfig where
  platformFeeCents : Option JSNum
  platformFeePct : JSNum
deriving DecidableEq, Repr

/-- The default fee configuration: no overrides in the environment. -/
def defaultFeeConfig : FeeConfig :=
  { platformFeeCents := none, platformFeePct := JSNum.fin (18/100) }

/-- Embedding of `calcPlatformFeeCents` (src/api/create-checkout.js):
```
const fixed = process.env.PLATFORM_FEE_CENTS ? Number(process.env.PLATFORM_FEE_CENTS) : null;
if (fixed != null && Number.isFinite(fixed)) return Math.max(0, Math.round(fixed));
const pct = Number(process.env.PLATFORM_FEE_PCT || '0.18');
if (!amountCents || Number.isNaN(amountCents)) return 0;
return Math.max(0, Math.round(amountCents * pct));
``` -/
def calcPlatformFeeCents (cfg : FeeConfig) (amountCents : JSAmount) : JSNum :=
  let pctBranch : JSNum :=
    if !amountCents.truthy || amountCents.isNaN then JSNum.fin 0
    else (amountCents.mulNum cfg.platformFeePct).round.max0
  match cfg.platformFeeCents with
  | some fixed => if fixed.isFinite then fixed.round.max0 else pctBranch
  | none => pctBranch

example : calcPlatformFeeCents defaultFeeConfig (.num (.fin 10000)) = .fin 1800 := by
  norm_num [calcPlatformFeeCents, defaultFeeConfig, JSAmount.truthy, JSNum.truthy,
    JSAmount.isNaN, JSNum.isNaN, JSAmount.mulNum, JSNum.mul, JSNum.round, JSNum.max0]

example : calcPlatformFeeCents defaultFeeConfig (.num .inf) = .inf := by
  norm_num [calcPlatformFeeCents, defaultFeeConfig, JSAmount.truthy, JSNum.truthy,
    JSAmount.isNaN, JSNum.isNaN, JSAmount.mulNum, JSNum.mul, JSNum.round, JSNum.max0]

/-! ## String helpers (URL manipulation, src/api/create-checkout.js) -/

/-- JS `u.includes(sub)`: substring containment. -/
def strIncludes (u sub : Str) : Bool := decide (sub <:+: u)

/-- JS `String.prototype.trim`. -/
def strTrim (s : Str) : Str :=
  ((s.dropWhile Char.isWhitespace).reverse.dropWhile Char.isWhitespace).reverse

/-- Truthiness of an optional string: absent and empty strings are falsy. -/
def truthyStr : Option Str → Bool
  | none => false
  | some s => !s.isEmpty

/-- JS `a || b` on optional strings (empty string falsy). -/
def jsOrStr (a b : Option Str) : Option Str := if truthyStr a then a else b

/-- The processor's session-id substitution token `{CHECKOUT_SESSION_ID}`. -/
def sessionTokenStr : Str := strOf "\x7bCHECKOUT_SESSION_ID\x7d"

/-- Embedding of `ensureSessionToken` (src/api/create-checkout.js:41-45):
```
if (!u) return u;
if (u.includes('{CHECKOUT_SESSION_ID}')) return u;
return `${u}${u.includes('?') ? '&' : '?'}session_id={CHECKOUT_SESSION_ID}`;
``` -/
def ensureSessionToken (u : Str) : Str :=
  if u.isEmpty then u
  else if strIncludes u sessionTokenStr then u
  else u ++ (if u.contains '?' then strOf "&" else strOf "?")
         ++ strOf "session_id=" ++ sessionTokenStr

/-- Hexadecimal digit (uppercase), as produced by percent-encoding. -/
def hexDigitChar (n : ℕ) : Char :=
  if n < 10 then Char.ofNat (48 + n) else Char.ofNat (55 + n)

/-- UTF-8 bytes of a character (used by `encodeURIComponent`). -/
def utf8Bytes (c : Char) : List ℕ :=
  let n := c.toNat
  if n < 128 then [n]
  else if n < 2048 then [192 + n / 64, 128 + n % 64]
  else if n < 65536 then [224 + n / 4096, 128 + (n / 64) % 64, 128 + n % 64]
  else [240 + n / 262144, 128 + (n / 4096) % 64, 128 + (n / 64) % 64, 128 + n % 64]

/-- Characters `encodeURIComponent` leaves unescaped:
`A-Z a-z 0-9 - _ . ! ~ * ' ( )`. -/
def uriUnreserved (c : Char) : Bool :=
  c.isAlphanum || (strOf "-_.!~*()").contains c || c.toNat = 39

/-- Percent-encoding of a single character. -/
def encodeChar (c : Char) : Str :=
  if uriUnreserved c then [c]
  else ((utf8Bytes c).map fun b => ['%', hexDigitChar (b / 16), hexDigitChar (b % 16)]).flatten

/-- JS `encodeURIComponent`. -/
def encodeURIComponent (s : Str) : Str := (s.map encodeChar).flatten

/-- Embedding of `appendQueryParam` (src/api/create-checkout.js:47-56):
```
if (!u || value == null) return u;
const strVal = String(value);
const hashIndex = u.indexOf('#');
const hasHash = hashIndex >= 0;
const base = hasHash ? u.slice(0, hashIndex) : u;
const hash = hasHash ? u.slice(hashIndex) : '';
const sep = base.includes('?') ? '&' : '?';
return `${base}${sep}${encodeURIComponent(key)}=${encodeURIComponent(strVal)}${hash}`;
```
Slicing at the first `#` is expressed with `takeWhile`/`dropWhile` (when no
`#` is present, `base = u` and `hash = ''`, as in the source). The value is
an optional string (`none` covers both `null` and `undefined`). -/
def appendQueryParam (u : Str) (key : Str) (value : Option Str) : Str :=
  match value with
  | none => u
  | some v =>
    if u.isEmpty then u
    else
      let base := u.takeWhile (fun c => c != '#')
      let hash := u.dropWhile (fun c => c != '#')
      let sep : Char := if base.contains '?' then '&' else '?'
      base ++ [sep] ++ encodeURIComponent key ++ ['='] ++ encodeURIComponent v ++ hash

/-- Embedding of `isAbsoluteUrl` (src/api/create-checkout.js:28-30):
the case-insensitive test `/^https?:\/\//i`. -/
def isAbsoluteUrl (u : Str) : Bool :=
  (strOf "http://").isPrefixOf (u.map Char.toLower)
    || (strOf "https://").isPrefixOf (u.map Char.toLower)

/-- Embedding of `absoluteUrl` (src/api/create-checkout.js:31-39);
`publicSiteUrl` is `process.env.PUBLIC_SITE_URL`. -/
def absoluteUrl (publicSiteUrl : Option Str) (u : Str) : Option Str :=
  if u.isEmpty then none
  else if isAbsoluteUrl u then some u
  else
    let base := strTrim (publicSiteUrl.getD [])
    if !isAbsoluteUrl base then none
    else
      let baseNoSlash := (base.reverse.dropWhile (fun c => c == '/')).reverse
      let path := if u.head? = some '/' then u else '/' :: u
      some (baseNoSlash ++ path)

/-! ## Email validation (src/lib (validation), `isValidEmail`) -/

/-- A character admitted by the atom class `[^\s@]` of the email regex. -/
def isEmailAtomChar (c : Char) : Bool := !c.isWhitespace && c != '@'

/-- Embedding of `isValidEmail`: `EMAIL_REGEX.test(email.trim())` with
`EMAIL_REGEX = /^[^\s@]+@[^\s@]+\.[^\s@]+$/`. The trimmed string matches
exactly when it decomposes as `local ++ '@' ++ rest` where `local` is a
nonempty run of `[^\s@]` characters, `rest` is a nonempty run of `[^\s@]`
characters, and `rest` contains a `'.'` that is neither its first nor its
last character (so that both `[^\s@]+` chunks around `\.` are nonempty;
`'.'` itself belongs to `[^\s@]`, so greedy matching with backtracking
accepts exactly these strings). The split is at the first `'@'`, since the
local part admits no `'@'` and `rest` is checked to be `'@'`-free. -/
def isValidEmail (s : Str) : Bool :=
  let t := strTrim s
  let lcl := t.takeWhile (fun c => c != '@')
  let atRest := t.dropWhile (fun c => c != '@')
  let rest := atRest.tail
  !atRest.isEmpty && !lcl.isEmpty && lcl.all isEmailAtomChar
    && !rest.isEmpty && rest.all isEmailAtomChar
    && rest.tail.dropLast.contains '.'

example : isValidEmail (strOf "a@b.co") = true := by decide
example : isValidEmail (strOf "not-an-email") = false := by decide
example : isValidEmail (strOf "a@b.") = false := by decide

/-! ## Data model: listings, payees, worlds (src/api/create-checkout.js) -/

/-- A CMS field value as seen by the `typeof v === 'string'` checks:
absent, a string, or some non-string value. -/
inductive FieldVal where
  | undef : FieldVal
  | str : Str → FieldVal
  | nonStr : FieldVal
deriving DecidableEq, Repr

/-- The predicate of `getCoachConnectId`'s scan:
`typeof v === 'string' && v.startsWith('acct_')`. -/
def acctValid : FieldVal → Bool
  | .str s => (strOf "acct_").isPrefixOf s
  | _ => false

/-- The payee record's legacy connected-account fields, in the order the
source lists them (src/api/create-checkout.js:136-141):
`coach-stripe-account-id`, `stripe-account-id`,
`coach_stripe_account_id`, `stripe_account_id`. -/
structure CoachFields where
  coachStripeAccountId : FieldVal
  stripeAccountId : FieldVal
  coachStripeAccountIdUnderscore : FieldVal
  stripeAccountIdUnderscore : FieldVal
deriving DecidableEq, Repr

/-- The fixed candidate list, in source priority order. -/
def coachCandidates (f : CoachFields) : List FieldVal :=
  [f.coachStripeAccountId, f.stripeAccountId,
   f.coachStripeAccountIdUnderscore, f.stripeAccountIdUnderscore]

/-- The pure core of `getCoachConnectId` (src/api/create-checkout.js:142-143):
`candidates.find(v => typeof v === 'string' && v.startsWith('acct_')) || null`. -/
def pickConnectId (f : CoachFields) : Option Str :=
  match (coachCandidates f).find? acctValid with
  | some (.str s) => some s
  | _ => none

/-- A Listing as produced by `mapItemToLab` (src/api/create-checkout.js:75-93);
every field that can be `null`/absent is an `Option`. -/
structure Lab where
  id : Option Str
  title : Str
  priceId : Option Str
  priceCents : Option JSNum
  seatsRemaining : Option JSNum
  coachRefId : Option Str
  successUrl : Option Str
  cancelUrl : Option Str
deriving DecidableEq, Repr

/-- The availability guard (src/api/create-checkout.js:225-228): checkout
is blocked exactly when
`typeof lab.seatsRemaining === 'number' && lab.seatsRemaining <= 0`
(note the JS `<=`, under which `NaN <= 0` is false). -/
def checkAvailable (lab : Lab) : Bool :=
  !(match lab.seatsRemaining with
    | some x => JSNum.leb x (.fin 0)
    | none => false)

/-- A checkout line item: a pre-defined price reference, or inline
`price_data` with a unit amount (src/api/create-checkout.js:241-252). -/
inductive LineItem where
  | priceRef : Str → LineItem
  | priceData : JSNum → Str → LineItem
deriving DecidableEq, Repr

/-- The line-item selection (src/api/create-checkout.js:241-259):
`if (lab.priceId) ... else if (lab.priceCents) ... else` (HTTP 400). -/
def lineItemOf (lab : Lab) : Option LineItem :=
  let fallback : Option LineItem :=
    match lab.priceCents with
    | some x => if x.truthy then some (.priceData x lab.title) else none
    | none => none
  match lab.priceId with
  | some p => if !p.isEmpty then some (.priceRef p) else fallback
  | none => fallback

/-- Failure modes of the listing lookup: the upstream error message
contained `resource_not_found` (handled, HTTP 404) or anything else
(re-thrown, HTTP 500). -/
inductive LabErr where
  | notFoundMsg : LabErr
  | otherErr : LabErr
deriving DecidableEq, Repr

/-- The environment and the outcome of every outbound call made by one
request to `create-checkout`: the configuration, the lab lookup's result,
the coach item fetch's result, and the processor's stored price amounts
(`stripe.prices.retrieve(id).unit_amount ?? null`; retrieval itself is
assumed to respond). -/
structure World where
  feeCfg : FeeConfig
  checkoutSuccessUrl : Option Str
  checkoutCancelUrl : Option Str
  publicSiteUrl : Option Str
  labResult : Except LabErr (Option Lab)
  coachFetch : Except Unit CoachFields
  stripePrice : Str → Option JSNum

/-- Embedding of `getCoachConnectId` (src/api/create-checkout.js:127-144):
a falsy `coachItemId` short-circuits to `null`; otherwise the coach item is
fetched (a throwing fetch propagates, `.error`) and the candidate scan
`pickConnectId` runs on its field data. -/
def getCoachConnectId (w : World) (coachItemId : Option Str) :
    Except Unit (Option Str) :=
  if !truthyStr coachItemId then .ok none
  else
    match w.coachFetch with
    | .error e => .error e
    | .ok f => .ok (pickConnectId f)

/-- Embedding of `resolveUnitPriceCents` (src/api/create-checkout.js:159-167):
```
if (typeof lab.priceCents === 'number' && lab.priceCents > 0) return lab.priceCents;
if (lab.priceId) {
  const price = await stripe.prices.retrieve(lab.priceId);
  const cents = price?.unit_amount ?? null;
  if (typeof cents === 'number' && cents > 0) return cents;
}
return null;
``` -/
def resolveUnitPriceCents (w : World) (lab : Lab) : Option JSNum :=
  let viaPriceId : Option JSNum :=
    match lab.priceId with
    | some p =>
      if !p.isEmpty then
        match w.stripePrice p with
        | some c => if JSNum.ltb (.fin 0) c then some c else none
        | none => none
      else none
    | none => none
  match lab.priceCents with
  | some x => if JSNum.ltb (.fin 0) x then some x else viaPriceId
  | none => viaPriceId

/-- Modelled from the spec: step 4.5.7 of the specification ("Resolve the
actual unit amount for fee purposes — if a pre-defined price reference was
used, fetch its amount from the processor ... rather than trusting any
locally cached numeric price"). This definition is NOT in the source; it
exists only to be compared with `resolveUnitPriceCents`, whose source
prefers the locally cached numeric price. -/
def resolveUnitPriceCentsSpec (w : World) (lab : Lab) : Option JSNum :=
  let viaCached : Option JSNum :=
    match lab.priceCents with
    | some x => if JSNum.ltb (.fin 0) x then some x else none
    | none => none
  match lab.priceId with
  | some p =>
    if !p.isEmpty then
      match w.stripePrice p with
      | some c => if JSNum.ltb (.fin 0) c then some c else none
      | none => none
    else viaCached
  | none => viaCached

/-! ## The checkout handler (src/api/create-checkout.js:172-366) -/

/-- The request body and relevant headers of a `create-checkout` call. -/
structure Req where
  method : Str
  contentType : Str
  labId : Option Str
  labSlug : Option Str
  studentName : Option Str
  studentEmail : Option Str
deriving DecidableEq, Repr

/-- The distinct response bodies of the handler (identified by message). -/
inductive ErrBody where
  | empty
  | methodNotAllowed
  | useJson
  | missingLab
  | labNotFound
  | soldOut
  | noConnectId
  | noPrice
  | cannotResolvePrice
  | urlConfig
  | internal
deriving DecidableEq, Repr

/-- The parameters the handler passes to
`stripe.checkout.sessions.create` (src/api/create-checkout.js:312-341),
plus `unitAmountCents` recording the resolved unit amount the fee was
computed from (the handler's local `unitAmountCents`). -/
structure CreatedSession where
  lineItem : LineItem
  customerEmail : Option Str
  studentNameOptional : Bool
  destination : Str
  applicationFeeAmount : JSNum
  clientReferenceId : Str
  metaFlightLabId : Option Str
  metaCoachConnectId : Str
  metaLabTitle : Str
  successUrl : Str
  cancelUrl : Str
  unitAmountCents : JSNum
deriving DecidableEq, Repr

/-- The observable outcome of one handler invocation: an HTTP error (or
preflight) response, or the creation of a checkout session (which the
handler answers with HTTP 200 and the session's redirect URL). -/
inductive Outcome where
  | response : ℕ → ErrBody → Outcome
  | created : CreatedSession → Outcome
deriving DecidableEq, Repr

/-- Embedding of the `create-checkout` handler
(src/api/create-checkout.js:172-366), following the source's control flow
step by step: OPTIONS preflight (204), method gate (405), content-type
gate (415), missing-identifier gate (400), listing resolution
(404/500), seats guard (409), payee resolution (400 on `null`, 500 on a
throwing fetch), line-item selection (400), unit-amount resolution with
the truthiness test `!unitAmountCents` (400), fee computation, URL
normalization (500 when unresolvable), and finally session creation. -/
def createCheckout (w : World) (r : Req) : Outcome :=
  if r.method = strOf "OPTIONS" then .response 204 .empty
  else if r.method ≠ strOf "POST" then .response 405 .methodNotAllowed
  else if !strIncludes r.contentType (strOf "application/json") then
    .response 415 .useJson
  else if !truthyStr r.labId && !truthyStr r.labSlug then
    .response 400 .missingLab
  else
    match w.labResult with
    | .error .notFoundMsg => .response 404 .labNotFound
    | .error .otherErr => .response 500 .internal
    | .ok none => .response 404 .labNotFound
    | .ok (some lab) =>
      if checkAvailable lab = false then .response 409 .soldOut
      else
        match getCoachConnectId w lab.coachRefId with
        | .error _ => .response 500 .internal
        | .ok none => .response 400 .noConnectId
        | .ok (some acct) =>
          match lineItemOf lab with
          | none => .response 400 .noPrice
          | some li =>
            match resolveUnitPriceCents w lab with
            | none => .response 400 .cannotResolvePrice
            | some unit =>
              if !unit.truthy then .response 400 .cannotResolvePrice
              else
                let fee := calcPlatformFeeCents w.feeCfg (.num unit)
                let rawSuccess :=
                  (jsOrStr (jsOrStr w.checkoutSuccessUrl lab.successUrl)
                    (some (strOf "/flight-lab-success"))).getD []
                let rawCancel :=
                  (jsOrStr (jsOrStr w.checkoutCancelUrl lab.cancelUrl)
                    (some (strOf "/flight-lab-cancelled"))).getD []
                let rawSuccessWithLab :=
                  appendQueryParam rawSuccess (strOf "lab") lab.id
                let successUrlWithToken := ensureSessionToken rawSuccessWithLab
                match absoluteUrl w.publicSiteUrl successUrlWithToken,
                      absoluteUrl w.publicSiteUrl rawCancel with
                | some successUrl, some cancelUrl =>
                  .created
                    { lineItem := li
                      customerEmail :=
                        if truthyStr r.studentEmail then r.studentEmail else none
                      studentNameOptional := !truthyStr r.studentName
                      destination := acct
                      applicationFeeAmount := fee
                      clientReferenceId :=
                        strOf "lab_" ++ lab.id.getD (strOf "undefined")
                      metaFlightLabId := lab.id
                      metaCoachConnectId := acct
                      metaLabTitle := lab.title
                      successUrl := successUrl
                      cancelUrl := cancelUrl
                      unitAmountCents := unit }
                | _, _ => .response 500 .urlConfig

/-! ## The settlement webhook handler (src/api/stripe-webhook.js) -/

/-- The `response.ok` test of the Fetch API: status in 200..299. -/
def statusOk (s : ℕ) : Bool := 200 ≤ s && s < 300

/-- An incoming webhook delivery as the handler sees it: the HTTP method,
whether a `stripe-signature` header is present, and the outcome of
`stripe.webhooks.constructEvent` (an error message, or the verified
event's type). -/
structure WebhookReq where
  method : String
  hasSignatureHeader : Bool
  verifyResult : Except String String
deriving Repr

/-- The outcome of the outbound forward call to the automation endpoint:
the call threw (network/transport error, or a throwing `requireEnv`), or
it produced an HTTP response with the given status. -/
inductive ForwardOutcome where
  | threw : ForwardOutcome
  | responded : ℕ → ForwardOutcome
deriving DecidableEq, Repr

/-- The distinct response bodies of the webhook handler:
a plain error text, `{received: true}`, or
`{received: true, forwarded: false, error: ...}`. -/
inductive WebhookBody where
  | errorText
  | received
  | receivedNotForwarded
deriving DecidableEq, Repr

/-- A webhook handler response: HTTP status plus body shape. -/
structure WebhookResp where
  status : ℕ
  body : WebhookBody
deriving DecidableEq, Repr

/-- Embedding of the webhook handler (src/api/stripe-webhook.js:29-159):
method gate (405), signature-header gate (400), signature verification
(400 on failure); for a `checkout.session.completed` event the normalized
payload is forwarded and a throwing forward or a non-2xx forward response
yields HTTP 500 with `{received: true, forwarded: false, error}`, while a
2xx forward response — and any event of another type — yields HTTP 200
with `{received: true}`. (The optional expanded-session retrieve only
shapes the payload, never the status, and is omitted.) -/
def stripeWebhookHandler (r : WebhookReq) (forward : ForwardOutcome) :
    WebhookResp :=
  if r.method ≠ "POST" then ⟨405, .errorText⟩
  else if !r.hasSignatureHeader then ⟨400, .errorText⟩
  else
    match r.verifyResult with
    | .error _ => ⟨400, .errorText⟩
    | .ok evType =>
      if evType = "checkout.session.completed" then
        match forward with
        | .threw => ⟨500, .receivedNotForwarded⟩
        | .responded s =>
          if statusOk s then ⟨200, .received⟩
          else ⟨500, .receivedNotForwarded⟩
      else ⟨200, .received⟩

/-! ## The content-store fetch primitive (src/lib/webflow.js:60-120) -/

/-- The constant `LIMITS.MAX_RETRY_ATTEMPTS` (src/lib/constants.js). -/
def maxRetryAttempts : ℕ := 3

/-- The backoff before the next attempt:
`Math.pow(2, attempt) * 1000` milliseconds. -/
def retryDelayMs (attempt : ℕ) : ℕ := 2 ^ attempt * 1000

/-- What one `fetch` attempt does: throw with an error `code`, or produce
a response with a status. -/
inductive Attempt where
  | threw : String → Attempt
  | responded : ℕ → Attempt
deriving DecidableEq, Repr

/-- The final result of `webflowFetch`: parsed success, a thrown HTTP
error carrying the status, or a re-thrown network error carrying the code. -/
inductive FetchResult where
  | success : FetchResult
  | httpErr : ℕ → FetchResult
  | netErr : String → FetchResult
deriving DecidableEq, Repr

/-- One execution of the retry loop of `webflowFetch`
(src/lib/webflow.js:64-119), from attempt number `attempt` on, where the
`i`-th attempt's outcome is `o i`. Returns the number of attempts made,
the list of backoff delays slept, and the result. A 2xx response returns;
a 4xx other than 429 throws immediately; any other non-ok response
retries while `attempt < maxAttempts` (sleeping `2^attempt * 1000` ms)
and throws on the last attempt; a thrown `ECONNRESET`/`ETIMEDOUT` retries
under the same bound, any other exception is re-thrown at once. The
`fuel` argument only bounds the recursion and never runs out when the
loop starts at attempt 1 with `fuel = maxRetryAttempts`. -/
def webflowGo (o : ℕ → Attempt) : ℕ → ℕ → ℕ × List ℕ × FetchResult
  | _, 0 => (0, [], .netErr "out-of-fuel")
  | attempt, fuel + 1 =>
    match o attempt with
    | .responded s =>
      if statusOk s then (1, [], .success)
      else if 400 ≤ s ∧ s < 500 ∧ s ≠ 429 then (1, [], .httpErr s)
      else if attempt < maxRetryAttempts then
        let rest := webflowGo o (attempt + 1) fuel
        (rest.1 + 1, retryDelayMs attempt :: rest.2.1, rest.2.2)
      else (1, [], .httpErr s)
    | .threw code =>
      if attempt < maxRetryAttempts ∧ (code = "ECONNRESET" ∨ code = "ETIMEDOUT") then
        let rest := webflowGo o (attempt + 1) fuel
        (rest.1 + 1, retryDelayMs attempt :: rest.2.1, rest.2.2)
      else (1, [], .netErr code)

/-- Embedding of `webflowFetch` (src/lib/webflow.js:60-120): run the
retry loop from attempt 1. -/
def webflowFetch (o : ℕ → Attempt) : ℕ × List ℕ × FetchResult :=
  webflowGo o 1 maxRetryAttempts

example : webflowFetch (fun _ => .responded 503) =
    (3, [2000, 4000], .httpErr 503) := by decide
example : webflowFetch (fun _ => .responded 304) =
    (3, [2000, 4000], .httpErr 304) := by decide
example : webflowFetch (fun _ => .responded 404) = (1, [], .httpErr 404) := by
  decide

/-! ## Concrete fixtures used by witnesses and counterexamples -/

/-- A listing with an inline price of 1000 cents and 3 seats left. -/
def labHappy : Lab :=
  { id := none
    title := strOf "Alpine Lab"
    priceId := none
    priceCents := some (.fin 1000)
    seatsRemaining := some (.fin 3)
    coachRefId := some (strOf "coach-1")
    successUrl := none
    cancelUrl := none }

/-- A payee record whose second legacy field holds a valid account id. -/
def coachHappy : CoachFields :=
  { coachStripeAccountId := .undef
    stripeAccountId := .str (strOf "acct_1A2B3C")
    coachStripeAccountIdUnderscore := .nonStr
    stripeAccountIdUnderscore := .undef }

/-- A fully configured world around `labHappy`, parametric in the fee
configuration. -/
def worldWithFee (cfg : FeeConfig) : World :=
  { feeCfg := cfg
    checkoutSuccessUrl := some (strOf "https://krav.example/success")
    checkoutCancelUrl := some (strOf "https://krav.example/cancel")
    publicSiteUrl := none
    labResult := .ok (some labHappy)
    coachFetch := .ok coachHappy
    stripePrice := fun _ => none }

/-- A syntactically well-formed request whose buyer email is not a valid
email address. -/
def reqBadEmail : Req :=
  { method := strOf "POST"
    contentType := strOf "application/json"
    labId := some (strOf "lab-1")
    labSlug := none
    studentName := none
    studentEmail := some (strOf "not-an-email") }

/-- The session `createCheckout (worldWithFee cfg) reqBadEmail` creates,
parametric in the fee amount. -/
def sessionWithFee (fee : JSNum) : CreatedSession :=
  { lineItem := .priceData (.fin 1000) (strOf "Alpine Lab")
    customerEmail := some (strOf "not-an-email")
    studentNameOptional := true
    destination := strOf "acct_1A2B3C"
    applicationFeeAmount := fee
    clientReferenceId := strOf "lab_undefined"
    metaFlightLabId := none
    metaCoachConnectId := strOf "acct_1A2B3C"
    metaLabTitle := strOf "Alpine Lab"
    successUrl := strOf "https://krav.example/success?session_id=\x7bCHECKOUT_SESSION_ID\x7d"
    cancelUrl := strOf "https://krav.example/cancel"
    unitAmountCents := .fin 1000 }

/-- Evaluating the pipeline on the fixture world: every step is concrete
except the fee, which stays symbolic in the configuration. -/
lemma createCheckout_worldWithFee (cfg : FeeConfig) :
    createCheckout (worldWithFee cfg) reqBadEmail =
      .created (sessionWithFee (calcPlatformFeeCents cfg (.num (.fin 1000)))) := rfl

/-! ## Claims -/

/-- C1: for an incoming delivery of type `checkout.session.completed`
(method POST, signature present and verified), the webhook handler
responds 200 `{received: true}` exactly when the forward call to the
automation endpoint returned a 2xx response, and responds 500
`{received: true, forwarded: false, error: ...}` whenever the forward
call threw or returned a non-2xx response. -/
theorem webhook_forward_failure_is_500 (r : WebhookReq) (f : ForwardOutcome)
    (hm : r.method = "POST") (hs : r.hasSignatureHeader = true)
    (hv : r.verifyResult = .ok "checkout.session.completed") :
    (stripeWebhookHandler r f = ⟨200, .received⟩ ↔
      ∃ s, f = .responded s ∧ statusOk s = true) ∧
    ((f = .threw ∨ ∃ s, f = .responded s ∧ statusOk s = false) →
      stripeWebhookHandler r f = ⟨500, .receivedNotForwarded⟩) := by
  obtain ⟨m, sig, vr⟩ := r
  simp only at hm hs hv
  subst hm hs hv
  rcases f with _ | s
  · exact ⟨by simp [stripeWebhookHandler], fun _ => by simp [stripeWebhookHandler]⟩
  · cases hok : statusOk s with
    | true =>
      refine ⟨?_, ?_⟩
      · simp only [stripeWebhookHandler, hok]
        exact ⟨fun _ => ⟨s, rfl, hok⟩, fun _ => by simp⟩
      · rintro (h | ⟨s', hs', hns'⟩)
        · cases h
        · cases hs'; rw [hok] at hns'; cases hns'
    | false =>
      refine ⟨?_, ?_⟩
      · simp only [stripeWebhookHandler, hok]
        constructor
        · intro h; simp at h
        · rintro ⟨s', hs', hok'⟩
          cases hs'; rw [hok] at hok'; cases hok'
      · intro _
        simp [stripeWebhookHandler, hok]

/-- C1 witness: a 2xx forward yields 200 `{received: true}` and a 503
forward yields 500 `{received: true, forwarded: false, ...}`. -/
theorem webhook_forward_failure_is_500_witness :
    stripeWebhookHandler ⟨"POST", true, .ok "checkout.session.completed"⟩
        (.responded 200) = ⟨200, .received⟩ ∧
    stripeWebhookHandler ⟨"POST", true, .ok "checkout.session.completed"⟩
        (.responded 503) = ⟨500, .receivedNotForwarded⟩ :=
  ⟨(webhook_forward_failure_is_500 _ _ rfl rfl rfl).1.mpr ⟨200, rfl, rfl⟩,
   (webhook_forward_failure_is_500 _ _ rfl rfl rfl).2 (Or.inr ⟨503, rfl, rfl⟩)⟩

/-- C2 counterexample: the claim says a non-finite unit amount (with no
override) yields fee 0, but at `U = Infinity` the default-configured
calculator returns `Infinity`, not 0 (`!Infinity` and
`Number.isNaN(Infinity)` are both false, and `Infinity * 0.18 = Infinity`). -/
theorem fee_infinite_amount_cex :
    defaultFeeConfig.platformFeeCents = none ∧
    JSNum.inf.isFinite = false ∧
    calcPlatformFeeCents defaultFeeConfig (.num .inf) = .inf ∧
    JSNum.inf ≠ .fin 0 := by
  refine ⟨rfl, rfl, ?_, by simp⟩
  norm_num [calcPlatformFeeCents, defaultFeeConfig, JSAmount.truthy, JSNum.truthy,
    JSAmount.isNaN, JSNum.isNaN, JSAmount.mulNum, JSNum.mul, JSNum.round, JSNum.max0]

/-- C2 amended: the fee calculator is a pure function of the unit amount
and configuration; a finite integer fixed override is returned (clamped
to ≥ 0) for every unit amount including 0; without an override the fee is
`max(0, round(U * pct))` with `pct` defaulting to 0.18, so
`computeFee(0) = 0` and `computeFee(10000) = 1800`; a zero, absent
(`undefined`) or `NaN` unit amount yields 0 (an infinite amount, however,
propagates — see the counterexample). -/
theorem calcPlatformFee_spec :
    (∀ (cfg : FeeConfig) (U : JSAmount) (n : ℤ),
        cfg.platformFeeCents = some (.fin (n : ℚ)) →
        calcPlatformFeeCents cfg U = .fin ((max 0 n : ℤ) : ℚ)) ∧
    calcPlatformFeeCents defaultFeeConfig (.num (.fin 0)) = .fin 0 ∧
    calcPlatformFeeCents defaultFeeConfig (.num (.fin 10000)) = .fin 1800 ∧
    (∀ cfg : FeeConfig, cfg.platformFeeCents = none →
        calcPlatformFeeCents cfg (.num (.fin 0)) = .fin 0 ∧
        calcPlatformFeeCents cfg .undef = .fin 0 ∧
        calcPlatformFeeCents cfg (.num .nan) = .fin 0) ∧
    (∀ (cfg : FeeConfig) (p q : ℚ), cfg.platformFeeCents = none →
        cfg.platformFeePct = .fin p → q ≠ 0 →
        calcPlatformFeeCents cfg (.num (.fin q)) =
          .fin ((max 0 (⌊q * p + 1/2⌋ : ℤ) : ℤ) : ℚ)) := by
  refine ⟨?_, ?_, ?_, ?_, ?_⟩
  · intro cfg U n h
    simp only [calcPlatformFeeCents, h, JSNum.isFinite, JSNum.round, JSNum.max0,
      if_true]
    have hfl : (⌊(n : ℚ) + 1/2⌋ : ℤ) = n := by
      rw [Int.floor_int_add]
      norm_num
    rw [hfl]
    push_cast
    rfl
  · norm_num [calcPlatformFeeCents, defaultFeeConfig, JSAmount.truthy, JSNum.truthy]
  · norm_num [calcPlatformFeeCents, defaultFeeConfig, JSAmount.truthy, JSNum.truthy,
      JSAmount.isNaN, JSNum.isNaN, JSAmount.mulNum, JSNum.mul, JSNum.round, JSNum.max0]
  · intro cfg h
    refine ⟨?_, ?_, ?_⟩ <;>
      simp [calcPlatformFeeCents, h, JSAmount.truthy, JSNum.truthy,
        JSAmount.isNaN, JSNum.isNaN]
  · intro cfg p q h hp hq
    simp only [calcPlatformFeeCents, h, hp, JSAmount.truthy, JSNum.truthy,
      JSAmount.isNaN, JSNum.isNaN, JSAmount.mulNum, JSNum.mul, JSNum.round,
      JSNum.max0]
    rw [if_neg (by simp [hq])]
    push_cast
    rfl

/-- C2 witness: a fixed override of 250 is returned at `U = 0`, and a
`NaN` unit amount yields fee 0 without an override. -/
theorem calcPlatformFee_spec_witness :
    calcPlatformFeeCents ⟨some (.fin ((250 : ℤ) : ℚ)), .fin (18/100)⟩
        (.num (.fin 0)) = .fin ((max 0 (250 : ℤ) : ℤ) : ℚ) ∧
    calcPlatformFeeCents ⟨none, .fin (18/100)⟩ (.num .nan) = .fin 0 :=
  ⟨calcPlatformFee_spec.1 _ _ 250 rfl,
   (calcPlatformFee_spec.2.2.2.1 ⟨none, .fin (18/100)⟩ rfl).2.2⟩

/-- A minimal listing carrying only a seat count, for exercising the
availability guard. -/
def labWithSeats (s : Option JSNum) : Lab :=
  { id := none
    title := []
    priceId := none
    priceCents := none
    seatsRemaining := s
    coachRefId := none
    successUrl := none
    cancelUrl := none }

/-- C5: the availability guard blocks checkout exactly when
`seatsRemaining` is a present number that is `<= 0` under the JS
comparison (a rational `q ≤ 0`, or `-Infinity`; `NaN <= 0` is false);
`checkAvailable {seatsRemaining: 0}` is false,
`checkAvailable {seatsRemaining: 1}` is true, `checkAvailable {}` is
true; and a request that reaches the guard is answered 409 "Sold out"
exactly when the guard fails. -/
theorem checkAvailable_spec :
    (∀ lab : Lab, checkAvailable lab = false ↔
       lab.seatsRemaining = some .ninf ∨
         ∃ q : ℚ, lab.seatsRemaining = some (.fin q) ∧ q ≤ 0) ∧
    checkAvailable (labWithSeats (some (.fin 0))) = false ∧
    checkAvailable (labWithSeats (some (.fin 1))) = true ∧
    checkAvailable (labWithSeats none) = true ∧
    (∀ (w : World) (r : Req) (lab : Lab),
       r.method = strOf "POST" →
       strIncludes r.contentType (strOf "application/json") = true →
       truthyStr r.labId = true →
       w.labResult = .ok (some lab) →
       (createCheckout w r = .response 409 .soldOut ↔
         checkAvailable lab = false)) := by
  refine ⟨?_, by rfl, by rfl, by rfl, ?_⟩
  · intro lab
    rcases hsr : lab.seatsRemaining with _ | x
    · simp [checkAvailable, hsr]
    · rcases x with _ | _ | _ | q <;>
        simp [checkAvailable, hsr, JSNum.leb]
  · intro w r lab hm hct hid hlab
    obtain ⟨m, ct, lid, lsl, sn, se⟩ := r
    obtain ⟨cfg, su, cu, ps, lr, cf, sp⟩ := w
    simp only at hm hct hid hlab
    subst hm hlab
    simp only [createCheckout]
    rw [if_neg (by decide), if_neg (by decide), if_neg (by simp [hct]),
      if_neg (by simp [hid])]
    by_cases hav : checkAvailable lab = false
    · simp [hav]
    · rw [if_neg hav]
      simp only [hav, iff_false]
      repeat' (split <;> try simp)

/-- C5 witness: a listing with `seatsRemaining = 0` is answered
409 "Sold out". -/
theorem checkAvailable_spec_witness :
    createCheckout
      { worldWithFee defaultFeeConfig with
          labResult := .ok (some (labWithSeats (some (.fin 0)))) }
      reqBadEmail = .response 409 .soldOut :=
  (checkAvailable_spec.2.2.2.2
      { worldWithFee defaultFeeConfig with
          labResult := .ok (some (labWithSeats (some (.fin 0)))) }
      reqBadEmail (labWithSeats (some (.fin 0))) rfl rfl rfl rfl).mpr rfl

/-- The `find?` of a list returns the element at the first index that satisfies
the predicate. -/
lemma find?_first {α : Type} (p : α → Bool) :
    ∀ (l : List α) (i : ℕ) (hi : i < l.length),
      p (l.get ⟨i, hi⟩) = true →
      (∀ j (hj : j < i), p (l.get ⟨j, Nat.lt_trans hj hi⟩) = false) →
      l.find? p = some (l.get ⟨i, hi⟩)
  | a :: t, 0, _, hp, _ => by
      simpa using List.find?_cons_of_pos t hp
  | a :: t, i + 1, hi, hp, hprev => by
      have ha : p a = false := hprev 0 (Nat.succ_pos i)
      rw [List.find?_cons_of_neg t (by simp [ha])]
      exact find?_first p t i (Nat.lt_of_succ_lt_succ hi) hp
        (fun j hj => hprev (j + 1) (Nat.succ_lt_succ hj))

/-- A payee record with no validly formatted connected-account field. -/
def coachNoAcct : CoachFields :=
  { coachStripeAccountId := .str (strOf "ACCT-legacy")
    stripeAccountId := .undef
    coachStripeAccountIdUnderscore := .nonStr
    stripeAccountIdUnderscore := .undef }

/-- C6: connected-account resolution scans the fixed ordered candidate
list and returns `none` exactly when no candidate is a string with the
`acct_` prefix; any returned value carries that prefix; when the
candidate at index `i` is valid and all earlier candidates are invalid,
the value at index `i` is returned (first in priority order); and the
checkout handler answers a `none` resolution with HTTP 400. -/
theorem payee_resolution_spec :
    (∀ f : CoachFields, pickConnectId f = none ↔
        ∀ v ∈ coachCandidates f, acctValid v = false) ∧
    (∀ (f : CoachFields) (s : Str), pickConnectId f = some s →
        (strOf "acct_").isPrefixOf s = true) ∧
    (∀ (f : CoachFields) (i : ℕ) (hi : i < (coachCandidates f).length),
        acctValid ((coachCandidates f).get ⟨i, hi⟩) = true →
        (∀ j (hj : j < i),
          acctValid ((coachCandidates f).get ⟨j, Nat.lt_trans hj hi⟩) = false) →
        ∃ s, (coachCandidates f).get ⟨i, hi⟩ = .str s ∧
          pickConnectId f = some s) ∧
    (∀ (w : World) (r : Req) (lab : Lab) (f : CoachFields),
       r.method = strOf "POST" →
       strIncludes r.contentType (strOf "application/json") = true →
       truthyStr r.labId = true →
       w.labResult = .ok (some lab) →
       checkAvailable lab = true →
       truthyStr lab.coachRefId = true →
       w.coachFetch = .ok f →
       pickConnectId f = none →
       createCheckout w r = .response 400 .noConnectId) := by
  refine ⟨?_, ?_, ?_, ?_⟩
  · intro f
    cases hf : (coachCandidates f).find? acctValid with
    | none =>
      simp only [pickConnectId, hf]
      have := List.find?_eq_none.mp hf
      simpa using fun v hv => by simpa using this v hv
    | some v =>
      have hv := List.find?_some hf
      have hmem := List.mem_of_find?_eq_some hf
      cases v with
      | str s =>
        simp only [pickConnectId, hf]
        constructor
        · intro h; cases h
        · intro hall
          rw [hall (.str s) hmem] at hv
          cases hv
      | undef => cases hv
      | nonStr => cases hv
  · intro f s h
    cases hf : (coachCandidates f).find? acctValid with
    | none => rw [pickConnectId, hf] at h; cases h
    | some v =>
      have hv := List.find?_some hf
      cases v with
      | str s' =>
        rw [pickConnectId, hf] at h
        cases h
        exact hv
      | undef => cases hv
      | nonStr => cases hv
  · intro f i hi hvi hprev
    have hfind := find?_first acctValid (coachCandidates f) i hi hvi hprev
    cases hv : (coachCandidates f).get ⟨i, hi⟩ with
    | str s =>
      refine ⟨s, rfl, ?_⟩
      rw [pickConnectId, hfind, hv]
    | undef => rw [hv] at hvi; cases hvi
    | nonStr => rw [hv] at hvi; cases hvi
  · intro w r lab f hm hct hid hlab hav htr hcf hpick
    obtain ⟨m, ct, lid, lsl, sn, se⟩ := r
    obtain ⟨cfg, su, cu, ps, lr, cfet, sp⟩ := w
    simp only at hm hct hid hlab hcf
    subst hm hlab hcf
    simp only [createCheckout]
    rw [if_neg (by decide), if_neg (by decide), if_neg (by simp [hct]),
      if_neg (by simp [hid]), if_neg (by simp [hav])]
    have hcoach :
        getCoachConnectId
          { feeCfg := cfg, checkoutSuccessUrl := su, checkoutCancelUrl := cu,
            publicSiteUrl := ps, labResult := Except.ok (some lab),
            coachFetch := Except.ok f, stripePrice := sp }
          lab.coachRefId = .ok none := by
      simp [getCoachConnectId, htr, hpick]
    rw [hcoach]

/-- C6 witness: a payee record whose only string field lacks the `acct_`
prefix resolves to `none`, and checkout is answered 400. -/
theorem payee_resolution_spec_witness :
    createCheckout
      { worldWithFee defaultFeeConfig with coachFetch := .ok coachNoAcct }
      reqBadEmail = .response 400 .noConnectId :=
  payee_resolution_spec.2.2.2
    { worldWithFee defaultFeeConfig with coachFetch := .ok coachNoAcct }
    reqBadEmail labHappy coachNoAcct rfl rfl rfl rfl rfl rfl rfl rfl

/-- C7: the "ensure session token" transform is idempotent — applying it
twice equals applying it once — and a URL already containing the
`{CHECKOUT_SESSION_ID}` token is returned unchanged, so the token is
never duplicated. -/
theorem ensureSessionToken_idempotent :
    (∀ u : Str, ensureSessionToken (ensureSessionToken u) = ensureSessionToken u) ∧
    (∀ u : Str, strIncludes u sessionTokenStr = true →
      ensureSessionToken u = u) := by
  have hcontains : ∀ u : Str, strIncludes u sessionTokenStr = true →
      ensureSessionToken u = u := by
    intro u h
    by_cases he : u.isEmpty
    · simp [ensureSessionToken, he]
    · simp [ensureSessionToken, he, h]
  refine ⟨?_, hcontains⟩
  intro u
  by_cases he : u.isEmpty
  · have hu : ensureSessionToken u = u := by simp [ensureSessionToken, he]
    rw [hu, hu]
  · by_cases h : strIncludes u sessionTokenStr = true
    · rw [hcontains u h, hcontains u h]
    · have happ : ensureSessionToken u =
          u ++ (if u.contains '?' then strOf "&" else strOf "?")
            ++ strOf "session_id=" ++ sessionTokenStr := by
        simp only [ensureSessionToken]
        rw [if_neg (by simpa using he), if_neg (by simpa using h)]
      rw [happ]
      apply hcontains
      apply decide_eq_true
      exact ⟨u ++ (if u.contains '?' then strOf "&" else strOf "?")
        ++ strOf "session_id=", [], by simp⟩

/-- C7 witness: a URL already carrying the token is unchanged. -/
theorem ensureSessionToken_idempotent_witness :
    ensureSessionToken (strOf "/ok?session_id=\x7bCHECKOUT_SESSION_ID\x7d") =
      strOf "/ok?session_id=\x7bCHECKOUT_SESSION_ID\x7d" :=
  ensureSessionToken_idempotent.2
    (strOf "/ok?session_id=\x7bCHECKOUT_SESSION_ID\x7d") rfl

/-- After dropping the characters before the first `#`, the head is `#`. -/
lemma hash_head (u : Str) (h : '#' ∈ u) :
    (u.dropWhile (fun c => c != '#')).head? = some '#' := by
  induction u with
  | nil => cases h
  | cons c t ih =>
    by_cases hc : c = '#'
    · subst hc; simp [List.dropWhile]
    · have ht : '#' ∈ t := by
        rcases List.mem_cons.mp h with h1 | h1
        · exact absurd h1.symm hc
        · exact h1
      have hb : (c != '#') = true := by simp [hc]
      simpa [List.dropWhile, hb] using ih ht

/-- C10: `appendQueryParam` returns the URL unchanged when the value is
`null`/`undefined` or the URL is falsy; and for a URL with a fragment it
inserts `sep ++ encode(key) ++ '=' ++ encode(value)` right before the
first `#`, keeping the whole fragment as an unchanged suffix. -/
theorem appendQueryParam_spec :
    (∀ (u k : Str), appendQueryParam u k none = u) ∧
    (∀ (k v : Str), appendQueryParam [] k (some v) = []) ∧
    (∀ (u k v : Str), '#' ∈ u →
      appendQueryParam u k (some v) =
        u.takeWhile (fun c => c != '#')
          ++ [if (u.takeWhile (fun c => c != '#')).contains '?' then '&' else '?']
          ++ encodeURIComponent k ++ ['='] ++ encodeURIComponent v
          ++ u.dropWhile (fun c => c != '#') ∧
      u.dropWhile (fun c => c != '#') <:+ appendQueryParam u k (some v) ∧
      (u.dropWhile (fun c => c != '#')).head? = some '#') := by
  refine ⟨fun u k => rfl, fun k v => rfl, ?_⟩
  intro u k v h
  have hne : u ≠ [] := by rintro rfl; cases h
  have hshape : appendQueryParam u k (some v) =
      u.takeWhile (fun c => c != '#')
        ++ [if (u.takeWhile (fun c => c != '#')).contains '?' then '&' else '?']
        ++ encodeURIComponent k ++ ['='] ++ encodeURIComponent v
        ++ u.dropWhile (fun c => c != '#') := by
    simp only [appendQueryParam]
    rw [if_neg (by simpa [List.isEmpty_iff] using hne)]
  refine ⟨hshape, ?_, hash_head u h⟩
  rw [hshape]
  exact ⟨u.takeWhile (fun c => c != '#')
      ++ [if (u.takeWhile (fun c => c != '#')).contains '?' then '&' else '?']
      ++ encodeURIComponent k ++ ['='] ++ encodeURIComponent v,
    by simp [List.append_assoc]⟩

/-- C10 witness: `/p#frag` with `lab=1` becomes `/p?lab=1#frag` — the
parameter lands before the fragment and the fragment survives. -/
theorem appendQueryParam_spec_witness :
    appendQueryParam (strOf "/p#frag") (strOf "lab") (some (strOf "1")) =
      strOf "/p?lab=1#frag" := by
  have h := appendQueryParam_spec.2.2 (strOf "/p#frag") (strOf "lab")
    (strOf "1") (by decide)
  rw [h.1]
  rfl

/-- The condition under which the retry loop of `webflowFetch` retries an
attempt: a retriable network error code, or a non-ok response that is not
a client error other than 429. -/
def retryQualifies : Attempt → Prop
  | .threw c => c = "ECONNRESET" ∨ c = "ETIMEDOUT"
  | .responded s => statusOk s = false ∧ ¬(400 ≤ s ∧ s < 500 ∧ s ≠ 429)

/-- Invariant of the retry loop: with enough fuel it makes between 1 and
`fuel` attempts, sleeps exactly the doubling backoffs of the attempts it
retried, and retries an attempt only when `retryQualifies` holds of it. -/
lemma webflowGo_spec (o : ℕ → Attempt) :
    ∀ (fuel attempt : ℕ), maxRetryAttempts < attempt + fuel →
      (1 ≤ fuel → 1 ≤ (webflowGo o attempt fuel).1) ∧
      (webflowGo o attempt fuel).1 ≤ fuel ∧
      (webflowGo o attempt fuel).2.1 =
        (List.range ((webflowGo o attempt fuel).1 - 1)).map
          (fun i => retryDelayMs (attempt + i)) ∧
      (∀ k, attempt ≤ k → k < attempt + ((webflowGo o attempt fuel).1 - 1) →
        retryQualifies (o k)) := by
  intro fuel
  induction fuel with
  | zero =>
    intro attempt _
    simp only [webflowGo]
    exact ⟨by omega, by omega, by simp, fun k hk1 hk2 => absurd hk2 (by omega)⟩
  | succ fuel ih =>
    intro attempt hfa
    cases ho : o attempt with
    | responded s =>
      by_cases h1 : statusOk s = true
      · have hgo : webflowGo o attempt (fuel + 1) = (1, [], .success) := by
          simp only [webflowGo, ho]
          rw [if_pos h1]
        simp only [hgo]
        exact ⟨fun _ => by omega, by omega, by simp,
          fun k hk1 hk2 => absurd hk2 (by omega)⟩
      · by_cases h2 : 400 ≤ s ∧ s < 500 ∧ s ≠ 429
        · have hgo : webflowGo o attempt (fuel + 1) = (1, [], .httpErr s) := by
            simp only [webflowGo, ho]
            rw [if_neg h1, if_pos h2]
          simp only [hgo]
          exact ⟨fun _ => by omega, by omega, by simp,
            fun k hk1 hk2 => absurd hk2 (by omega)⟩
        · by_cases h3 : attempt < maxRetryAttempts
          · have hrest := ih (attempt + 1) (by omega)
            have hfuel1 : 1 ≤ fuel := by
              simp only [maxRetryAttempts] at h3 hfa
              omega
            have hr1 := hrest.1 hfuel1
            have hgo : webflowGo o attempt (fuel + 1) =
                ((webflowGo o (attempt + 1) fuel).1 + 1,
                 retryDelayMs attempt :: (webflowGo o (attempt + 1) fuel).2.1,
                 (webflowGo o (attempt + 1) fuel).2.2) := by
              simp only [webflowGo, ho]
              rw [if_neg h1, if_neg h2, if_pos h3]
            simp only [hgo]
            refine ⟨fun _ => by omega, by have := hrest.2.1; omega, ?_, ?_⟩
            · rw [show (webflowGo o (attempt + 1) fuel).1 + 1 - 1 =
                  ((webflowGo o (attempt + 1) fuel).1 - 1) + 1 from by omega,
                List.range_succ_eq_map, List.map_cons, List.map_map]
              refine congrArg₂ List.cons (by simp) ?_
              rw [hrest.2.2.1]
              refine List.map_congr_left fun i _ => ?_
              simp only [Function.comp]
              congr 1
              omega
            · intro k hk1 hk2
              rcases Nat.eq_or_lt_of_le hk1 with rfl | hgt
              · rw [ho]
                exact ⟨by simpa using h1, h2⟩
              · exact hrest.2.2.2 k hgt (by omega)
          · have hgo : webflowGo o attempt (fuel + 1) = (1, [], .httpErr s) := by
              simp only [webflowGo, ho]
              rw [if_neg h1, if_neg h2, if_neg h3]
            simp only [hgo]
            exact ⟨fun _ => by omega, by omega, by simp,
              fun k hk1 hk2 => absurd hk2 (by omega)⟩
    | threw code =>
      by_cases h : attempt < maxRetryAttempts ∧
          (code = "ECONNRESET" ∨ code = "ETIMEDOUT")
      · have hrest := ih (attempt + 1) (by omega)
        have hfuel1 : 1 ≤ fuel := by
          have h3 := h.1
          simp only [maxRetryAttempts] at h3 hfa
          omega
        have hr1 := hrest.1 hfuel1
        have hgo : webflowGo o attempt (fuel + 1) =
            ((webflowGo o (attempt + 1) fuel).1 + 1,
             retryDelayMs attempt :: (webflowGo o (attempt + 1) fuel).2.1,
             (webflowGo o (attempt + 1) fuel).2.2) := by
          simp only [webflowGo, ho]
          rw [if_pos h]
        simp only [hgo]
        refine ⟨fun _ => by omega, by have := hrest.2.1; omega, ?_, ?_⟩
        · rw [show (webflowGo o (attempt + 1) fuel).1 + 1 - 1 =
              ((webflowGo o (attempt + 1) fuel).1 - 1) + 1 from by omega,
            List.range_succ_eq_map, List.map_cons, List.map_map]
          refine congrArg₂ List.cons (by simp) ?_
          rw [hrest.2.2.1]
          refine List.map_congr_left fun i _ => ?_
          simp only [Function.comp]
          congr 1
          omega
        · intro k hk1 hk2
          rcases Nat.eq_or_lt_of_le hk1 with rfl | hgt
          · rw [ho]
            exact h.2
          · exact hrest.2.2.2 k hgt (by omega)
      · have hgo : webflowGo o attempt (fuel + 1) = (1, [], .netErr code) := by
          simp only [webflowGo, ho]
          rw [if_neg h]
        simp only [hgo]
        exact ⟨fun _ => by omega, by omega, by simp,
          fun k hk1 hk2 => absurd hk2 (by omega)⟩

/-- C8 counterexample: the claim allows retries only for network errors
and 5xx/429 responses, but a constant `304 Not Modified` upstream — not a
5xx, not 429, not a network error — is retried twice (3 attempts, with
backoffs 2000 ms and 4000 ms). -/
theorem webflowFetch_304_cex :
    webflowFetch (fun _ => .responded 304) = (3, [2000, 4000], .httpErr 304) ∧
    ¬(500 ≤ 304) ∧ (304 : ℕ) ≠ 429 ∧ statusOk 304 = false := by decide

/-- C8 amended: `webflowFetch` makes between 1 and 3 attempts; its
backoffs are `[]`, `[2000]` or `[2000, 4000]` ms (the delay doubles per
attempt); an attempt is retried only when it was a retriable network
error (`ECONNRESET`/`ETIMEDOUT`) or a non-ok response outside the
4xx-other-than-429 class (in particular every 5xx and 429, but also
non-ok non-4xx statuses such as 304); and a first-attempt 4xx response
other than 429 fails immediately with a single attempt and no backoff. -/
theorem webflowFetch_retry_spec (o : ℕ → Attempt) :
    1 ≤ (webflowFetch o).1 ∧ (webflowFetch o).1 ≤ 3 ∧
    ((webflowFetch o).2.1 = [] ∨ (webflowFetch o).2.1 = [2000] ∨
      (webflowFetch o).2.1 = [2000, 4000]) ∧
    (∀ k, 1 ≤ k → k < (webflowFetch o).1 → retryQualifies (o k)) ∧
    (∀ s, 400 ≤ s → s < 500 → s ≠ 429 → o 1 = .responded s →
      webflowFetch o = (1, [], .httpErr s)) := by
  have hw : webflowFetch o = webflowGo o 1 3 := rfl
  have h := webflowGo_spec o 3 1 (by simp [maxRetryAttempts])
  have h1 := h.1 (by norm_num)
  have hle := h.2.1
  have hs := h.2.2.1
  have hq := h.2.2.2
  rw [hw]
  refine ⟨h1, hle, ?_, ?_, ?_⟩
  · have hc : (webflowGo o 1 3).1 - 1 = 0 ∨ (webflowGo o 1 3).1 - 1 = 1 ∨
        (webflowGo o 1 3).1 - 1 = 2 := by omega
    rcases hc with hc | hc | hc <;> rw [hs, hc] <;> decide
  · intro k hk1 hk2
    exact hq k hk1 (by omega)
  · intro s hs4 hs5 hs9 ho
    have hnok : ¬(statusOk s = true) := by
      simp only [statusOk]
      simp only [Bool.and_eq_true, decide_eq_true_eq, not_and]
      omega
    simp only [webflowGo, ho]
    rw [if_neg hnok, if_pos ⟨hs4, hs5, hs9⟩]

/-- C8 witness: a first-attempt 404 fails immediately, with one attempt
and no backoff. -/
theorem webflowFetch_retry_spec_witness :
    webflowFetch (fun _ => .responded 404) = (1, [], .httpErr 404) :=
  (webflowFetch_retry_spec (fun _ => .responded 404)).2.2.2.2 404
    (by norm_num) (by norm_num) (by norm_num) rfl

/-- Whenever the handler creates a session, its fee field is exactly the
fee calculator applied to the resolved unit amount it records. -/
lemma createCheckout_created_fee (w : World) (r : Req) (s : CreatedSession)
    (h : createCheckout w r = .created s) :
    s.applicationFeeAmount =
      calcPlatformFeeCents w.feeCfg (.num s.unitAmountCents) := by
  simp only [createCheckout] at h
  repeat' split at h
  all_goals cases h
  all_goals rfl

/-- Without a fixed override and with a percentage in `[0, 1]`, the fee
on a positive integer amount is a natural number bounded by the amount. -/
lemma calc_fee_le (cfg : FeeConfig) (p : ℚ) (n : ℕ)
    (hc : cfg.platformFeeCents = none) (hp : cfg.platformFeePct = .fin p)
    (hp1 : p ≤ 1) (hn : 1 ≤ n) :
    ∃ m : ℕ, calcPlatformFeeCents cfg (.num (.fin (n : ℚ))) = .fin (m : ℚ) ∧
      m ≤ n := by
  have hq : ((n : ℕ) : ℚ) ≠ 0 := Nat.cast_ne_zero.mpr (by omega)
  have hval : calcPlatformFeeCents cfg (.num (.fin (n : ℚ))) =
      .fin ((max 0 (⌊(n : ℚ) * p + 1/2⌋ : ℤ) : ℤ) : ℚ) := by
    simp only [calcPlatformFeeCents, hc, hp, JSAmount.truthy, JSNum.truthy,
      JSAmount.isNaN, JSNum.isNaN, JSAmount.mulNum, JSNum.mul, JSNum.round,
      JSNum.max0]
    rw [if_neg (by simp [hq])]
    push_cast
    rfl
  set z : ℤ := ⌊(n : ℚ) * p + 1/2⌋ with hzdef
  have hmul : (n : ℚ) * p ≤ (n : ℚ) :=
    mul_le_of_le_one_right (by positivity) hp1
  have hzn : z ≤ (n : ℤ) := by
    have h4 : ⌊(n : ℚ) + 1/2⌋ = (n : ℤ) := by
      rw [show ((n : ℕ) : ℚ) = ((n : ℤ) : ℚ) from by push_cast; ring,
        Int.floor_int_add]
      norm_num
    calc z ≤ ⌊(n : ℚ) + 1/2⌋ := Int.floor_le_floor (by linarith)
    _ = (n : ℤ) := h4
  refine ⟨z.toNat, ?_, by omega⟩
  rw [hval]
  congr 1
  rcases le_or_lt 0 z with hz0 | hz0
  · rw [max_eq_right (by exact_mod_cast hz0)]
    exact_mod_cast (congrArg (Int.cast : ℤ → ℚ)
      (Int.toNat_of_nonneg hz0)).symm
  · rw [max_eq_left (by exact_mod_cast hz0.le)]
    rw [Int.toNat_of_nonpos hz0.le]
    norm_num

/-- C3 amended: the created session's fee never exceeds the resolved
unit price, provided no fixed fee override is configured and the
configured percentage lies in `[0, 1]` and the resolved unit amount is a
positive integer. (The unamended claim — over every configuration — is
refuted by the counterexample: a fixed override larger than the price is
attached unchecked.) -/
theorem fee_never_exceeds_price (w : World) (r : Req) (s : CreatedSession)
    (p : ℚ) (n : ℕ)
    (hcr : createCheckout w r = .created s)
    (hc : w.feeCfg.platformFeeCents = none)
    (hp : w.feeCfg.platformFeePct = .fin p) (hp1 : p ≤ 1)
    (hu : s.unitAmountCents = .fin (n : ℚ)) (hn : 1 ≤ n) :
    JSNum.leb s.applicationFeeAmount s.unitAmountCents = true := by
  have hfee := createCheckout_created_fee w r s hcr
  obtain ⟨m, hm, hmn⟩ := calc_fee_le w.feeCfg p n hc hp hp1 hn
  rw [hu] at hfee
  rw [hfee, hm, hu]
  simp only [JSNum.leb]
  exact decide_eq_true (by exact_mod_cast hmn)

/-- A configuration with `PLATFORM_FEE_CENTS = 50000`. -/
def overrideFeeConfig : FeeConfig :=
  { platformFeeCents := some (.fin 50000), platformFeePct := .fin (18/100) }

/-- C3 counterexample: with a fixed fee override of 50000 cents and a
listing whose resolvable unit price is 1000 cents, the session is
created with `application_fee_amount = 50000 > 1000`. -/
theorem fee_exceeds_price_cex :
    createCheckout (worldWithFee overrideFeeConfig) reqBadEmail =
      .created (sessionWithFee (.fin 50000)) ∧
    (sessionWithFee (.fin 50000)).unitAmountCents = .fin 1000 ∧
    JSNum.leb (sessionWithFee (.fin 50000)).applicationFeeAmount
      (sessionWithFee (.fin 50000)).unitAmountCents = false := by
  refine ⟨?_, rfl, ?_⟩
  · rw [createCheckout_worldWithFee]
    norm_num [calcPlatformFeeCents, overrideFeeConfig, JSNum.isFinite,
      JSNum.round, JSNum.max0]
  · simp only [sessionWithFee, JSNum.leb]
    norm_num

/-- C3 witness: in the default configuration (18%), the fixture checkout
is created with fee 180 on a unit price of 1000, and 180 ≤ 1000. -/
theorem fee_never_exceeds_price_witness :
    JSNum.leb (sessionWithFee (.fin 180)).applicationFeeAmount
      (sessionWithFee (.fin 180)).unitAmountCents = true := by
  apply fee_never_exceeds_price (worldWithFee defaultFeeConfig) reqBadEmail
    (sessionWithFee (.fin 180)) (18/100) 1000
  · rw [createCheckout_worldWithFee]
    norm_num [calcPlatformFeeCents, defaultFeeConfig, JSAmount.truthy,
      JSNum.truthy, JSAmount.isNaN, JSNum.isNaN, JSAmount.mulNum, JSNum.mul,
      JSNum.round, JSNum.max0]
  · rfl
  · rfl
  · norm_num
  · norm_num [sessionWithFee]
  · norm_num

/-- A listing carrying both a processor price reference and a locally
cached numeric price. -/
def labBothPrices : Lab :=
  { id := none
    title := strOf "Lab"
    priceId := some (strOf "price_A")
    priceCents := some (.fin 5000)
    seatsRemaining := none
    coachRefId := none
    successUrl := none
    cancelUrl := none }

/-- A world in which the processor's stored price `price_A` has unit
amount 7000 cents, differing from the cached 5000 cents. -/
def worldBothPrices : World :=
  { feeCfg := defaultFeeConfig
    checkoutSuccessUrl := none
    checkoutCancelUrl := none
    publicSiteUrl := none
    labResult := .ok (some labBothPrices)
    coachFetch := .ok coachHappy
    stripePrice := fun p =>
      if p = strOf "price_A" then some (.fin 7000) else none }

/-- C4: on a listing that carries a price reference AND a cached numeric
price, the source's resolver returns the locally cached 5000 — not the
7000 fetched from the processor — whereas the spec's step 4.5.7 policy
(`resolveUnitPriceCentsSpec`, modelled from the spec) returns 7000.
This exhibits the divergence the claim is about. -/
theorem resolveUnitPrice_prefers_cached :
    resolveUnitPriceCents worldBothPrices labBothPrices = some (.fin 5000) ∧
    worldBothPrices.stripePrice (strOf "price_A") = some (.fin 7000) ∧
    resolveUnitPriceCentsSpec worldBothPrices labBothPrices =
      some (.fin 7000) ∧
    JSNum.fin 5000 ≠ JSNum.fin 7000 := by
  refine ⟨rfl, rfl, rfl, ?_⟩
  simp only [ne_eq, JSNum.fin.injEq]
  norm_num

/-- The fee the default configuration computes on 1000 cents. -/
lemma fee_default_1000 :
    calcPlatformFeeCents defaultFeeConfig (.num (.fin 1000)) = .fin 180 := by
  norm_num [calcPlatformFeeCents, defaultFeeConfig, JSAmount.truthy,
    JSNum.truthy, JSAmount.isNaN, JSNum.isNaN, JSAmount.mulNum, JSNum.mul,
    JSNum.round, JSNum.max0]

/-- The fixture checkout goes through and creates a session. -/
lemma createCheckout_happy :
    createCheckout (worldWithFee defaultFeeConfig) reqBadEmail =
      .created (sessionWithFee (.fin 180)) := by
  rw [createCheckout_worldWithFee, fee_default_1000]

/-- C9 counterexample: the request's `studentEmail` is not a valid email
address (per the repository's own `isValidEmail`), yet the handler does
not answer 400 — it creates the payment session, passing the invalid
address through as `customer_email`. -/
theorem checkout_no_email_validation_cex :
    isValidEmail (strOf "not-an-email") = false ∧
    reqBadEmail.studentEmail = some (strOf "not-an-email") ∧
    createCheckout (worldWithFee defaultFeeConfig) reqBadEmail =
      .created (sessionWithFee (.fin 180)) ∧
    (sessionWithFee (.fin 180)).customerEmail =
      some (strOf "not-an-email") :=
  ⟨by decide, rfl, createCheckout_happy, rfl⟩

/-- Erase the only session field that depends on the buyer email. -/
def forgetEmail : Outcome → Outcome
  | .response st b => .response st b
  | .created s => .created { s with customerEmail := none }

/-- Whenever the handler creates a session, its `customer_email` is the
request's `studentEmail` passed through (`undefined` when falsy). -/
lemma createCheckout_created_email (w : World) (r : Req) (s : CreatedSession)
    (h : createCheckout w r = .created s) :
    s.customerEmail =
      if truthyStr r.studentEmail then r.studentEmail else none := by
  simp only [createCheckout] at h
  repeat' split at h
  all_goals cases h
  all_goals simp_all

/-- C9 amended: the handler performs no validation on `studentEmail` at
all — its outcome is unchanged under replacing the email (up to the
passed-through `customer_email` field), and in particular an invalid
email never produces an error response; the email only lands verbatim in
the created session's `customer_email`. -/
theorem createCheckout_email_invariance (w : World) (r : Req)
    (e : Option Str) :
    (forgetEmail (createCheckout w { r with studentEmail := e }) =
      forgetEmail (createCheckout w r)) ∧
    ∀ s, createCheckout w r = .created s →
      createCheckout w { r with studentEmail := e } =
        .created { s with customerEmail := (if truthyStr e then e else none) } := by
  obtain ⟨m, ct, lid, lsl, sn, se⟩ := r
  have hforget :
      forgetEmail (createCheckout w ⟨m, ct, lid, lsl, sn, e⟩) =
        forgetEmail (createCheckout w ⟨m, ct, lid, lsl, sn, se⟩) := by
    simp only [createCheckout]
    repeat' split <;> try rfl
  refine ⟨hforget, ?_⟩
  intro s hcr
  cases hcc : createCheckout w ⟨m, ct, lid, lsl, sn, e⟩ with
  | response st b =>
    rw [hcr, hcc] at hforget
    simp [forgetEmail] at hforget
  | created s' =>
    have he' := createCheckout_created_email w ⟨m, ct, lid, lsl, sn, e⟩ s' hcc
    simp only at he'
    rw [hcr, hcc] at hforget
    obtain ⟨a1, a2, a3, a4, a5, a6, a7, a8, a9, a10, a11, a12⟩ := s
    obtain ⟨b1, b2, b3, b4, b5, b6, b7, b8, b9, b10, b11, b12⟩ := s'
    simp only [forgetEmail, Outcome.created.injEq,
      CreatedSession.mk.injEq] at hforget ⊢
    simp only at he'
    exact ⟨hforget.1, he', hforget.2.2⟩

/-- C9 witness: removing the email from the fixture request still
creates the session, with `customer_email` absent. -/
theorem createCheckout_email_invariance_witness :
    createCheckout (worldWithFee defaultFeeConfig)
        { reqBadEmail with studentEmail := none } =
      .created { sessionWithFee (.fin 180) with customerEmail := none } := by
  have h := (createCheckout_email_invariance (worldWithFee defaultFeeConfig)
    reqBadEmail none).2 (sessionWithFee (.fin 180)) createCheckout_happy
  simpa using h
